import Mathlib

/-!
# Verification of the connctd device-abstraction SDK core

Shallow embedding of the Go sources (`client.go` and the device-model file)
into Lean 4, together with theorems settling the specification claims.

Modelling conventions:
* Bytes are `Nat` values `< 256` produced by the varint encoder; buffers and
  streams are `List Nat`.
* `bytes.Buffer` is modelled by its unread content: `Write` appends,
  reads consume from the front and consumed bytes are gone even when the
  read fails (exactly as in Go, where `binary.ReadUvarint` consumes from
  the buffer it is handed).
* The protobuf codec is an external collaborator; framing functions are
  parametric in an encoder `enc : Msg → List Nat` and a decoder
  `dec : List Nat → Option Msg`.
* Go pointers that only serve as back-references are modelled by the data
  the code reads through them: `Component.parent` and `Capability.parent`
  hold the identifier of the pointed-to entity, `Property.parent` holds the
  pair of identifiers that `Property.Update` reaches through its
  `parent.parent.Id` / `parent.parent.parent.Id` chain, and
  `Property.client` records whether the client pointer was set.
* A Go panic (nil-pointer dereference, `binary.PutUvarint` overrunning its
  4-byte buffer) is modelled by an `Option` result of `none`.
-/

namespace Sdk

/-! ## Varint encoding: `binary.PutUvarint` / `binary.ReadUvarint` -/

/-- Fuel-limited unsigned varint encoder body. `binary.PutUvarint` emits the
low seven bits of the value with the continuation bit set while the value is
`≥ 0x80`. Ten groups of seven bits cover every `uint64`, so fuel `10` makes
`uvarintOf` agree with Go on the whole `uint64` domain. -/
def uvarintAux : Nat → Nat → List Nat
  | 0, _ => []
  | f + 1, n => if n < 128 then [n] else (n % 128 + 128) :: uvarintAux f (n / 128)

/-- The byte sequence `binary.PutUvarint` writes for the value `n`. -/
def uvarintOf (n : Nat) : List Nat :=
  uvarintAux 10 n

/-- `binary.ReadUvarint` on a byte reader: `x` is the accumulator, `s` the
current shift, `i` the number of bytes consumed so far (the Go loop index).
Returns the decoded value (or `none` on EOF / overflow) together with the
bytes left unread; bytes consumed before a failure are not restored. -/
def readUvarintGo : List Nat → Nat → Nat → Nat → Option Nat × List Nat
  | [], _, _, _ => (none, [])
  | b :: rest, x, s, i =>
    if b < 128 then
      if i = 9 ∧ 1 < b then (none, rest)
      else (some (x + b * 2 ^ s), rest)
    else
      if i = 9 then (none, rest)
      else readUvarintGo rest (x + b % 128 * 2 ^ s) (s + 7) (i + 1)

/-- `binary.ReadUvarint` from the start of a buffer. -/
def readUvarint (bs : List Nat) : Option Nat × List Nat :=
  readUvarintGo bs 0 0 0

/-! ## `Client.send`

`send` marshals the message, writes the varint of the payload length into a
fixed buffer `lenBytes := make([]byte, 4)`, and writes prefix then payload.
`binary.PutUvarint` panics (slice index out of range) when the varint needs
more than the 4 available bytes; the panic is modelled by `none`. -/

/-- The bytes `Client.send` puts on the wire for an already-marshalled
payload, or `none` when `binary.PutUvarint` overruns the 4-byte buffer. -/
def send (data : List Nat) : Option (List Nat) :=
  let lenB := uvarintOf data.length
  if lenB.length ≤ 4 then some (lenB ++ data) else none

/-- One length-prefixed frame as produced by `send` for a payload that fits. -/
def frameBytes (payload : List Nat) : List Nat :=
  uvarintOf payload.length ++ payload

/-- The byte stream obtained by encoding and framing a sequence of messages. -/
def framesOf {Msg : Type} (enc : Msg → List Nat) (msgs : List Msg) : List Nat :=
  msgs.foldr (fun m acc => frameBytes (enc m) ++ acc) []

/-! ## `Client.read`, the receive loop

The loop reads one byte at a time into `lengthBuf`, attempts
`binary.ReadUvarint` on the buffer (consumed bytes are lost on failure, and
the buffer is `Reset` on success), then reads the announced number of payload
bytes (the model delivers the stream one byte per `conn.Read`, the situation
the spec singles out; a short stream makes the inner loop `break` and the
partial buffer is still handed to the decoder, as in the Go code).
`messageBuf` is `Reset` only when the decoder succeeds. The loop ends when
`conn.Read` reports an error, i.e. when the stream is exhausted. Each outer
iteration consumes at least one stream byte, so fuel equal to the stream
length is enough to run the loop to completion. -/
def readLoopAux {Msg : Type} (dec : List Nat → Option Msg) :
    Nat → List Nat → List Nat → List Nat → List Msg
  | 0, _, _, _ => []
  | _ + 1, [], _, _ => []
  | fuel + 1, b :: stream, lenBuf, msgBuf =>
    match readUvarintGo (lenBuf ++ [b]) 0 0 0 with
    | (none, rem) => readLoopAux dec fuel stream rem msgBuf
    | (some len, _) =>
      let m := min len stream.length
      let msgBuf2 := msgBuf ++ stream.take m
      match dec msgBuf2 with
      | none => readLoopAux dec fuel (stream.drop m) [] msgBuf2
      | some msg => msg :: readLoopAux dec fuel (stream.drop m) [] []

/-- The messages `Client.read` emits on the inbound queue for a finite byte
stream delivered one byte per read. -/
def readLoop {Msg : Type} (dec : List Nat → Option Msg) (stream : List Nat) : List Msg :=
  readLoopAux dec stream.length stream [] []

/-! A miniature structured-message codec used to instantiate the framing
theorems: a message is a byte list, its encoding is the list preceded by a
tag byte `1`, and decoding rejects anything not starting with that tag. -/

/-- Encoder of the miniature codec. -/
def tagEnc (m : List Nat) : List Nat := 1 :: m

/-- Decoder of the miniature codec; fails unless the bytes start with tag 1. -/
def tagDec (bs : List Nat) : Option (List Nat) :=
  match bs with
  | 1 :: rest => some rest
  | _ => none

/-! ## The device model: Thing / Component / Capability / Property / Action -/

/-- The declared type of a property value. -/
inductive ValueType where
  | boolean
  | string
  | number
deriving DecidableEq

/-- A typed, string-encoded value with a unit/semantic symbol. -/
structure Value where
  type : ValueType
  symbol : String
  value : String
deriving DecidableEq

/-- What `Property.Update` reaches through its parent-capability pointer:
`parent.parent.Id` is the component identifier and `parent.parent.parent.Id`
the thing identifier. -/
structure ParentRef where
  componentId : String
  thingId : String
deriving DecidableEq

/-- A property. `client` records whether the client back-pointer was set;
`parent` is the capability back-pointer, `none` when unset (a dereference of
an unset pointer panics in Go). -/
structure Property where
  value : Value
  name : String
  client : Bool
  parent : Option ParentRef
deriving DecidableEq

/-- The descriptor of an action as the handler sees it: Go passes the
dereferenced `Action` value itself to the handler; a Lean structure cannot
occur in the domain of one of its own fields, so the handler receives the
readable data of the action — its name and parameter declarations. -/
structure ActionSig where
  name : String
  parameters : List (String × ValueType)
deriving DecidableEq

/-- A named remotely invocable operation with typed parameter declarations.
The Go `parent *Capability` field of `Action` is never assigned nor read in
the sources, so it is omitted. Parameters carry only a name and a type. -/
structure Action where
  name : String
  parameters : List (String × ValueType)
  execute : ActionSig → List String → Option String

/-- The descriptor handed to the handler for `action.Execute(*action, ...)`. -/
def Action.descr (a : Action) : ActionSig :=
  { name := a.name, parameters := a.parameters }

/-- A capability; `parent` is the component back-pointer, as the component
identifier the wiring stores into it. -/
structure Capability where
  id : String
  actions : List Action
  properties : List Property
  parent : Option String

/-- A component; `parent` is the thing back-pointer, as the thing
identifier the wiring stores into it. -/
structure Component where
  id : String
  name : String
  componentType : String
  capabilities : List Capability
  properties : List Property
  actions : List Action
  parent : Option String

/-- The root device. -/
structure Thing where
  components : List Component
  id : String
  name : String
  manufacturer : String
  displayType : String
  maincomponentId : String
  attributes : List (String × String)
  componentType : String

/-- The client-side state the modelled operations touch: the registered
things, the snapshot update counter, and the connected flag. -/
structure ClientState where
  things : List Thing
  updateCounter : Nat
  connected : Bool

/-! ## Outbound protocol messages built by the modelled operations -/

/-- Execution status of an execution-result message. -/
inductive ExecStatus where
  | success
  | failure
deriving DecidableEq

/-- Outbound client messages built by the modelled operations. A property
change carries the path (thing, component, property name) and the value
(new value, declared type, symbol); an execution result carries the error
text, the status, and the request sequence number. -/
inductive ClientMessage where
  | propertyChange (thingId componentId propName newValue : String)
      (vtype : ValueType) (symbol : String)
  | executionResult (errorReason : String) (result : ExecStatus) (sequence : Nat)
deriving DecidableEq

/-- An inbound execute-action message: the path, the parameter values in
order, and the request sequence number. -/
structure ExecuteMsg where
  thingId : String
  componentId : String
  action : String
  parameters : List String
  sequence : Nat

/-! ## Validation (`Client.validateThing`) -/

/-- The errors the modelled operations return. -/
inductive SdkError where
  | duplicateThing (id : String)
  | invalidPropertyName (name : String)
  | invalidActionName (name : String)
  | thingNotFound (id : String)
deriving DecidableEq

/-- The name pattern of `validNameRegexp`: one or more ASCII letters or
digits, nothing else. -/
def validName (s : String) : Bool :=
  !s.data.isEmpty && s.data.all (fun c => c.isAlphanum)

/-- Name validation of a list of properties, first violation wins. -/
def validateProps : List Property → Option SdkError
  | [] => none
  | p :: rest =>
    if validName p.name then validateProps rest
    else some (.invalidPropertyName p.name)

/-- Name validation of a list of actions, first violation wins. -/
def validateActs : List Action → Option SdkError
  | [] => none
  | a :: rest =>
    if validName a.name then validateActs rest
    else some (.invalidActionName a.name)

/-- Per-capability validation: properties first, then actions. -/
def validateCaps : List Capability → Option SdkError
  | [] => none
  | cap :: rest =>
    match validateProps cap.properties with
    | some e => some e
    | none =>
      match validateActs cap.actions with
      | some e => some e
      | none => validateCaps rest

/-- Per-component validation in the order of `Client.validateThing`: direct
properties, direct actions, then the capabilities. -/
def validateComponents : List Component → Option SdkError
  | [] => none
  | co :: rest =>
    match validateProps co.properties with
    | some e => some e
    | none =>
      match validateActs co.actions with
      | some e => some e
      | none =>
        match validateCaps co.capabilities with
        | some e => some e
        | none => validateComponents rest

/-- `Client.validateThing`: reject a duplicate thing identifier first, then
run the name checks over the component tree. -/
def validateThing (c : ClientState) (t : Thing) : Option SdkError :=
  if c.things.any (fun th => th.id == t.id) then some (.duplicateThing t.id)
  else validateComponents t.components

/-! ## Registration (`Client.abstract` / `Client.Abstract`)

`Client.abstract` validates the thing, then walks the tree setting the
back-references: `component.parent = t`; `property.client = c` for the
properties held directly by a component (their `parent` is left untouched);
`property.client = c` and `property.parent = capability` for the properties
of each capability; `capability.parent = component`. -/

/-- Wiring of a property held directly by a component: only the client
back-pointer is set. -/
def wireDirectProperty (p : Property) : Property :=
  { p with client := true }

/-- Wiring of a property inside a capability: client and parent are set;
the parent pointer chain reaches the enclosing component's and thing's
identifiers. -/
def wireCapProperty (cid tid : String) (p : Property) : Property :=
  { p with client := true, parent := some { componentId := cid, thingId := tid } }

/-- Wiring of a capability of component `cid` inside thing `tid`. -/
def wireCapability (cid tid : String) (cap : Capability) : Capability :=
  { cap with
    parent := some cid
    properties := cap.properties.map (wireCapProperty cid tid) }

/-- Wiring of a component of thing `tid`. -/
def wireComponent (tid : String) (co : Component) : Component :=
  { co with
    parent := some tid
    properties := co.properties.map wireDirectProperty
    capabilities := co.capabilities.map (wireCapability co.id tid) }

/-- The fully wired thing appended to the client's registry. -/
def wireThing (t : Thing) : Thing :=
  { t with components := t.components.map (wireComponent t.id) }

/-- `Client.abstract`: validate, then wire and append; on a validation error
the state is unchanged. -/
def abstract (c : ClientState) (t : Thing) : ClientState × Option SdkError :=
  match validateThing c t with
  | some e => (c, some e)
  | none => ({ c with things := c.things ++ [wireThing t] }, none)

/-- `Client.Abstract`: register the batch one thing at a time, returning on
the first failure. -/
def Abstract : ClientState → List Thing → ClientState × Option SdkError
  | c, [] => (c, none)
  | c, t :: ts =>
    match abstract c t with
    | (c1, none) => Abstract c1 ts
    | (c1, some e) => (c1, some e)

/-! ## `Client.RemoveThing`

The Go loop `for i, thing = range c.things` leaves `i` at the index where
`break` fired, at `len-1` when the list is non-empty and no element matched,
and at its zero value `0` when the list is empty; only then does the guard
`i >= len(c.things)` hold. -/

/-- The value of `i` after the range loop of `RemoveThing`: `last` carries
the previously assigned index (initially the zero value 0). -/
def removeLoopIdx (id : String) (things : List Thing) : Nat :=
  go things 0 0
where
  go : List Thing → Nat → Nat → Nat
    | [], _, last => last
    | th :: rest, k, _ => if th.id == id then k else go rest (k + 1) k

/-- `Client.RemoveThing`: drop the element at the loop index unless the
guard `i >= len(c.things)` reports not-found. -/
def RemoveThing (c : ClientState) (t : Thing) : ClientState × Option SdkError :=
  let i := removeLoopIdx t.id c.things
  if c.things.length ≤ i then (c, some (.thingNotFound t.id))
  else ({ c with things := c.things.take i ++ c.things.drop (i + 1) }, none)

/-! ## `Property.Update`

Sends a property-change message when the new value differs from the stored
value (string comparison); the stored value is never written. Building the
path dereferences the parent chain and sending dereferences the client
pointer; an unset pointer is a nil dereference, modelled as `none`. -/

/-- `Property.Update`: the returned property is the property after the call
(the code never mutates it) and the list holds the message sent, if any. -/
def Property.Update (p : Property) (newValue : String) :
    Option (Property × List ClientMessage) :=
  if p.value.value = newValue then some (p, [])
  else
    match p.parent with
    | none => none
    | some r =>
      if p.client then
        some (p, [ClientMessage.propertyChange r.thingId r.componentId p.name
          newValue p.value.type p.value.symbol])
      else none

/-- Two successive `Update` calls with the same value, threading the
property state; returns the concatenation of the messages sent. -/
def updateTwice (p : Property) (v : String) : Option (List ClientMessage) :=
  match p.Update v with
  | none => none
  | some (p1, ms1) =>
    match p1.Update v with
    | none => none
    | some (_, ms2) => some (ms1 ++ ms2)

/-! ## Resolution and dispatch (`Client.handleAction`) -/

/-- `Client.getThing`: first registered thing with the identifier. -/
def getThing (c : ClientState) (tid : String) : Option Thing :=
  c.things.find? (fun th => th.id == tid)

/-- `Thing.GetComponent`: first component with the identifier. -/
def Thing.GetComponent (t : Thing) (cid : String) : Option Component :=
  t.components.find? (fun co => co.id == cid)

/-- `Component.GetAction`: first action of the component's capabilities with
the name; the component's direct `Actions` slice is never consulted. -/
def Component.GetAction (co : Component) (an : String) : Option Action :=
  co.capabilities.findSome? (fun cap => cap.actions.find? (fun a => a.name == an))

/-- `Client.handleAction`: resolve thing, component and action; invoke the
handler with the action descriptor and the parameter values; send exactly
one execution result carrying the request sequence number, SUCCESS on a nil
handler error and FAILURE with the error text otherwise. An unresolved path
produces no invocation and no message. The first list records the handler
invocations (descriptor and arguments), the second the messages sent. -/
def handleAction (c : ClientState) (msg : ExecuteMsg) :
    List (ActionSig × List String) × List ClientMessage :=
  match getThing c msg.thingId with
  | none => ([], [])
  | some thing =>
    match thing.GetComponent msg.componentId with
    | none => ([], [])
    | some comp =>
      match comp.GetAction msg.action with
      | none => ([], [])
      | some action =>
        let params := msg.parameters
        match action.execute action.descr params with
        | none =>
          ([(action.descr, params)],
            [.executionResult "" .success msg.sequence])
        | some e =>
          ([(action.descr, params)],
            [.executionResult e .failure msg.sequence])

/-! ## Concrete example data used by witnesses and counterexamples -/

/-- A message whose tag-codec encoding is 128 bytes long, so that the frame
length needs a two-byte varint. -/
def bigMsg : List Nat := List.replicate 127 7

/-- The empty client. -/
def c0 : ClientState := { things := [], updateCounter := 0, connected := false }

/-- A thing with identifier `a` and no components. -/
def tA : Thing :=
  { components := [], id := "a", name := "", manufacturer := "", displayType := ""
    maincomponentId := "", attributes := [], componentType := "" }

/-- A thing with identifier `b` and no components. -/
def tB : Thing := { tA with id := "b" }

/-- A client with exactly `tA` registered. -/
def cRemove : ClientState := { things := [tA], updateCounter := 0, connected := false }

/-- A fully wired property with stored value `"0"`. -/
def pWired : Property :=
  { value := { type := .string, symbol := "", value := "0" }, name := "Brightness"
    client := true, parent := some { componentId := "comp1", thingId := "thing1" } }

/-- The change message `pWired.Update "1"` sends. -/
def chgW : ClientMessage :=
  .propertyChange "thing1" "comp1" "Brightness" "1" .string ""

/-- An unwired property held directly by a component. -/
def pDirect : Property :=
  { value := { type := .string, symbol := "", value := "0" }, name := "Direct1"
    client := false, parent := none }

/-- An unwired property inside a capability. -/
def pCap : Property := { pDirect with name := "Cap1" }

/-- A capability holding `pCap`. -/
def capX : Capability := { id := "capA", actions := [], properties := [pCap], parent := none }

/-- A component holding `pDirect` directly and `pCap` through `capX`. -/
def compX : Component :=
  { id := "comp1", name := "C", componentType := "", capabilities := [capX]
    properties := [pDirect], actions := [], parent := none }

/-- A thing holding `compX`. -/
def thingX : Thing :=
  { components := [compX], id := "thing1", name := "T", manufacturer := ""
    displayType := "", maincomponentId := "comp1", attributes := [], componentType := "" }

/-- First thing of the duplicate-identifier scenario. -/
def tDup1 : Thing :=
  { components := [], id := "dup", name := "First", manufacturer := "", displayType := ""
    maincomponentId := "", attributes := [], componentType := "" }

/-- Second thing of the duplicate-identifier scenario, same identifier. -/
def tDup2 : Thing := { tDup1 with name := "Second" }

/-- An action whose handler always succeeds. -/
def actTurnOn : Action :=
  { name := "turnOn", parameters := [], execute := fun _ _ => none }

/-- A capability holding `actTurnOn`. -/
def capTurn : Capability :=
  { id := "capT", actions := [actTurnOn], properties := [], parent := none }

/-- A component reaching `actTurnOn` through `capTurn`. -/
def compTurn : Component :=
  { id := "comp1", name := "", componentType := "", capabilities := [capTurn]
    properties := [], actions := [], parent := none }

/-- A thing holding `compTurn`. -/
def thingTurn : Thing :=
  { components := [compTurn], id := "thing1", name := "", manufacturer := ""
    displayType := "", maincomponentId := "comp1", attributes := [], componentType := "" }

/-- A client with `thingTurn` registered. -/
def cTurn : ClientState :=
  { things := [wireThing thingTurn], updateCounter := 0, connected := false }

/-- A component holding `actTurnOn` only in its direct `Actions` slice. -/
def compDirect : Component :=
  { id := "comp2", name := "", componentType := "", capabilities := []
    properties := [], actions := [actTurnOn], parent := none }

/-- A thing holding `compDirect`. -/
def thingDirect : Thing :=
  { components := [compDirect], id := "thing2", name := "", manufacturer := ""
    displayType := "", maincomponentId := "comp2", attributes := [], componentType := "" }

/-- A client with `thingDirect` registered. -/
def cDirect : ClientState :=
  { things := [wireThing thingDirect], updateCounter := 0, connected := false }

/-! ## Sanity checks of the framing embedding -/

/-- Messages with single-byte length prefixes round-trip through the
receive loop, confirming the embedding agrees with the code on the easy
path and isolating the failure below to the multi-byte prefix. -/
theorem readLoop_short_frames_ok :
    readLoop tagDec (framesOf tagEnc [[5], [6, 7]]) = [[5], [6, 7]] := by decide

/-! ## Claim theorems -/

set_option maxRecDepth 8000 in
/-- C1 (code_bug evidence): the tag codec round-trips `bigMsg` and its
encoding is 128 bytes, so the frame of `bigMsg` carries a two-byte varint
length prefix; feeding that frame to the receive loop one byte per read does
not reproduce `[bigMsg]` — the first prefix byte is consumed and lost by the
failed `binary.ReadUvarint`, the second alone is parsed as length 1, and the
stream desynchronizes. -/
theorem c1_multibyte_varint_misframed :
    tagDec (tagEnc bigMsg) = some bigMsg ∧
    (tagEnc bigMsg).length = 128 ∧
    readLoop tagDec (framesOf tagEnc [bigMsg]) ≠ [bigMsg] := by decide

/-- C2 (code_bug evidence): removing a thing whose identifier `b` matches no
registered thing from a client holding only the thing with identifier `a`
returns no error and deletes that unrelated thing, instead of failing with
not-found and leaving the list unchanged. -/
theorem c2_remove_deletes_wrong_thing :
    RemoveThing cRemove tB =
      ({ things := [], updateCounter := 0, connected := false }, none) ∧
    tA.id ≠ tB.id := by
  exact ⟨rfl, by decide⟩

/-- C5 (code_bug evidence): a frame whose payload `[0]` fails to decode,
followed by the well-formed frame of the message `[5]`, yields no message at
all — the malformed payload stays in the message buffer because the reset is
skipped on decode failure — although the well-formed frame alone decodes to
its message. -/
theorem c5_malformed_frame_contaminates :
    tagDec [0] = none ∧
    readLoop tagDec (frameBytes [0] ++ frameBytes (tagEnc [5])) = [] ∧
    readLoop tagDec (frameBytes (tagEnc [5])) = [[5]] := by decide

/-- C3 (counterexample): on a wired property with stored value `"0"`, two
successive updates to `"1"` send two change messages in total while the
first call alone sends one — the repeat call does not send none, refuting
"exactly one message" as stated. -/
theorem c3_counterexample :
    (updateTwice pWired "1").map List.length = some 2 ∧
    (pWired.Update "1").map (fun r => r.2.length) = some 1 := by decide

/-- C4 (counterexample): registering `thingX` succeeds, yet the parent
back-reference of the property its component holds directly is still unset
afterwards, refuting "every Property anywhere in the tree has both its
client reference and its parent reference set". -/
theorem c4_counterexample :
    (abstract c0 thingX).2 = none ∧
    ((abstract c0 thingX).1.things.map fun th =>
      th.components.map fun co => co.properties.map Property.parent) = [[[none]]] := by
  exact ⟨rfl, rfl⟩

/-! ## Varint lemmas for C10 -/

/-- With at least one unit of fuel the encoder emits at least one byte. -/
theorem uvarintAux_ne_nil (f n : Nat) (hf : 1 ≤ f) : uvarintAux f n ≠ [] := by
  match f, hf with
  | f + 1, _ =>
    simp only [uvarintAux]
    split <;> simp

/-- The varint of `n` fits in `k` bytes exactly when `n < 128 ^ k`, for any
byte budget `1 ≤ k` below the fuel. -/
theorem uvarintAux_len_le_iff (f : Nat) :
    ∀ k n, 1 ≤ k → k < f → ((uvarintAux f n).length ≤ k ↔ n < 128 ^ k) := by
  induction f with
  | zero => intro k n h1 h2; omega
  | succ f ih =>
    intro k n h1 h2
    simp only [uvarintAux]
    split
    · rename_i hn
      simp only [List.length_singleton]
      constructor
      · intro _
        calc n < 128 := hn
          _ = 128 ^ 1 := (pow_one 128).symm
          _ ≤ 128 ^ k := Nat.pow_le_pow_right (by omega) h1
      · intro _; exact h1
    · rename_i hn
      push_neg at hn
      simp only [List.length_cons]
      by_cases hk : k = 1
      · subst hk
        constructor
        · intro hlen
          exfalso
          have hne := uvarintAux_ne_nil f (n / 128) (by omega)
          have hpos : 0 < (uvarintAux f (n / 128)).length := List.length_pos.mpr hne
          omega
        · intro hn2
          rw [pow_one] at hn2
          omega
      · have hk2 : 2 ≤ k := by omega
        have hiff := ih (k - 1) (n / 128) (by omega) (by omega)
        have hsplit : 128 ^ (k - 1) * 128 = 128 ^ k := by
          rw [← pow_succ]
          congr 1
          omega
        constructor
        · intro hlen
          have h3 : (uvarintAux f (n / 128)).length ≤ k - 1 := by omega
          have h4 : n / 128 < 128 ^ (k - 1) := hiff.mp h3
          have h5 : n < 128 ^ (k - 1) * 128 :=
            (Nat.div_lt_iff_lt_mul (by omega)).mp h4
          omega
        · intro hnk
          have h4 : n / 128 < 128 ^ (k - 1) := by
            rw [Nat.div_lt_iff_lt_mul (by omega)]
            omega
          have h5 := hiff.mpr h4
          omega

/-- Decoding what the encoder wrote recovers the value and leaves the tail
untouched, for any accumulator state that cannot run into the ten-byte
overflow guard. -/
theorem readUvarintGo_roundtrip (f : Nat) :
    ∀ n x s i rest, 1 ≤ f → n < 128 ^ f →
      i + (uvarintAux f n).length ≤ 9 →
      readUvarintGo (uvarintAux f n ++ rest) x s i = (some (x + n * 2 ^ s), rest) := by
  induction f with
  | zero => intro n x s i rest h1; omega
  | succ f ih =>
    intro n x s i rest _ hn hlen
    by_cases hsmall : n < 128
    · simp only [uvarintAux, if_pos hsmall, List.length_singleton] at hlen ⊢
      simp only [List.cons_append, List.nil_append, readUvarintGo, if_pos hsmall]
      rw [if_neg]
      · simp
      · rintro ⟨h9, _⟩
        omega
    · push_neg at hsmall
      have hf1 : 1 ≤ f := by
        rcases Nat.eq_zero_or_pos f with h0 | h1
        · subst h0
          rw [pow_one] at hn
          omega
        · exact h1
      have hne := uvarintAux_ne_nil f (n / 128) hf1
      have hpos : 0 < (uvarintAux f (n / 128)).length := List.length_pos.mpr hne
      simp only [uvarintAux, if_neg (by omega : ¬ n < 128), List.length_cons] at hlen ⊢
      simp only [List.cons_append, readUvarintGo, if_neg (by omega : ¬ n % 128 + 128 < 128),
        if_neg (by omega : ¬ i = 9)]
      have hmod : (n % 128 + 128) % 128 = n % 128 := by omega
      rw [hmod]
      have hn2 : n / 128 < 128 ^ f := by
        rw [Nat.div_lt_iff_lt_mul (by omega)]
        calc n < 128 ^ (f + 1) := hn
          _ = 128 ^ f * 128 := by rw [pow_succ]
      rw [List.append_eq, ih (n / 128) (x + n % 128 * 2 ^ s) (s + 7) (i + 1) rest hf1 hn2 (by omega)]
      have hpow : 2 ^ (s + 7) = 2 ^ s * 128 := by
        rw [pow_add]
        norm_num
      have hval : x + n % 128 * 2 ^ s + n / 128 * 2 ^ (s + 7) = x + n * 2 ^ s := by
        rw [hpow]
        calc x + n % 128 * 2 ^ s + n / 128 * (2 ^ s * 128)
            = x + (n % 128 + 128 * (n / 128)) * 2 ^ s := by ring
          _ = x + n * 2 ^ s := by rw [Nat.mod_add_div]
      rw [hval]

/-- C10: `send` writes the varint length prefix into a fixed 4-byte buffer,
so it is total exactly for payloads shorter than `2 ^ 28` bytes: below that
bound the frame is written and its prefix decodes back to the exact payload
length with the payload untouched; at or above it `binary.PutUvarint`
overruns the buffer, a panic, modelled as `none`. -/
theorem c10_send_varint_bound (data : List Nat) :
    (data.length < 2 ^ 28 →
      send data = some (uvarintOf data.length ++ data) ∧
      readUvarint (uvarintOf data.length ++ data) = (some data.length, data)) ∧
    (2 ^ 28 ≤ data.length → send data = none) := by
  have h2428 : (128 : ℕ) ^ 4 = 2 ^ 28 := by norm_num
  constructor
  · intro h
    have hlen : (uvarintOf data.length).length ≤ 4 := by
      rw [uvarintOf]
      rw [uvarintAux_len_le_iff 10 4 data.length (by omega) (by omega)]
      omega
    refine ⟨by simp [send, hlen], ?_⟩
    rw [uvarintOf, readUvarint]
    have hr := readUvarintGo_roundtrip 10 data.length 0 0 0 data (by omega)
      (by omega) (by rw [uvarintOf] at hlen; omega)
    simpa using hr
  · intro h
    have hlen : ¬ (uvarintOf data.length).length ≤ 4 := by
      rw [uvarintOf]
      rw [uvarintAux_len_le_iff 10 4 data.length (by omega) (by omega)]
      omega
    simp [send, hlen]

/-- Witness for C10 at the payload `[1, 2, 3]`: the frame is written and its
prefix decodes back to the length 3. -/
theorem c10_witness :
    send [1, 2, 3] = some [3, 1, 2, 3] ∧
    readUvarint [3, 1, 2, 3] = (some 3, [1, 2, 3]) :=
  (c10_send_varint_bound [1, 2, 3]).1 (by norm_num)

/-- C3 (amended): on a wired property, two successive updates with the same
value `v` send no message when `v` equals the stored value and two identical
change messages when it differs — never exactly one, because the first call
does not mutate the stored value. -/
theorem c3_update_twice_zero_or_two (p : Property) (v : String) (r : ParentRef)
    (hp : p.parent = some r) (hc : p.client = true) :
    updateTwice p v =
      some (if p.value.value = v then []
        else [ClientMessage.propertyChange r.thingId r.componentId p.name v
                p.value.type p.value.symbol,
              ClientMessage.propertyChange r.thingId r.componentId p.name v
                p.value.type p.value.symbol]) := by
  by_cases h : p.value.value = v
  · simp [updateTwice, Property.Update, h]
  · simp [updateTwice, Property.Update, h, hp, hc]

/-- Witness for C3 (amended) on the wired property `pWired`, updated twice
from stored value `"0"` to `"1"`: two identical change messages. -/
theorem c3_witness : updateTwice pWired "1" = some [chgW, chgW] := by
  have h := c3_update_twice_zero_or_two pWired "1"
    { componentId := "comp1", thingId := "thing1" } rfl rfl
  rw [h, if_neg (by decide)]
  rfl

/-- C8: a successful `Property.Update` call leaves the locally stored value,
its declared type and its symbol unchanged, whether or not a change message
was sent. -/
theorem c8_update_no_local_mutation (p : Property) (v : String)
    (r : Property × List ClientMessage) (h : p.Update v = some r) :
    r.1.value.value = p.value.value ∧ r.1.value.type = p.value.type ∧
    r.1.value.symbol = p.value.symbol := by
  have hfst : r.1 = p := by
    simp only [Property.Update] at h
    split at h
    · cases h
      rfl
    · split at h
      · cases h
      · split at h
        · cases h
          rfl
        · cases h
  rw [hfst]
  exact ⟨rfl, rfl, rfl⟩

/-- Witness for C8 at `pWired.Update "1"`, which sends a change message and
returns the property with value, type and symbol untouched. -/
theorem c8_witness :
    (pWired, [chgW]).1.value.value = pWired.value.value ∧
    (pWired, [chgW]).1.value.type = pWired.value.type ∧
    (pWired, [chgW]).1.value.symbol = pWired.value.symbol :=
  c8_update_no_local_mutation pWired "1" (pWired, [chgW]) rfl

/-- C4 (amended): after a successful registration, every component's parent
is the thing, every capability's parent is its component, every property
inside a capability has client and parent set — but the wiring leaves the
parent back-reference of properties held directly by a component exactly as
it was (only their client reference is set), so building a path from
back-references is only possible for capability-held properties. -/
theorem c4_wiring (c : ClientState) (t : Thing) (c1 : ClientState)
    (h : abstract c t = (c1, none)) :
    c1.things = c.things ++ [wireThing t] ∧
    (∀ co ∈ (wireThing t).components,
      co.parent = some t.id ∧
      (∀ p ∈ co.properties, p.client = true) ∧
      (∀ cap ∈ co.capabilities,
        cap.parent = some co.id ∧
        ∀ p ∈ cap.properties, p.client = true ∧
          p.parent = some { componentId := co.id, thingId := t.id })) ∧
    ((wireThing t).components.map fun co => co.properties.map Property.parent) =
      (t.components.map fun co => co.properties.map Property.parent) := by
  refine ⟨?_, ?_, ?_⟩
  · simp only [abstract] at h
    split at h
    · cases h
    · cases h
      rfl
  · intro co hco
    rw [wireThing] at hco
    simp only [List.mem_map] at hco
    obtain ⟨co0, _, rfl⟩ := hco
    refine ⟨rfl, ?_, ?_⟩
    · intro p hp
      simp only [wireComponent, List.mem_map] at hp
      obtain ⟨p0, _, rfl⟩ := hp
      rfl
    · intro cap hcap
      simp only [wireComponent, List.mem_map] at hcap
      obtain ⟨cap0, _, rfl⟩ := hcap
      refine ⟨rfl, ?_⟩
      intro p hp
      simp only [wireCapability, List.mem_map] at hp
      obtain ⟨p0, _, rfl⟩ := hp
      exact ⟨rfl, rfl⟩
  · simp only [wireThing, List.map_map]
    refine List.map_congr_left ?_
    intro co _
    simp [wireComponent, wireDirectProperty, List.map_map, Function.comp]

/-- Witness for C4 (amended) on the registered thing `thingX`, whose
component holds one direct property: the wiring leaves the direct
properties' parent references exactly as before registration. -/
theorem c4_witness :
    ((wireThing thingX).components.map fun co => co.properties.map Property.parent) =
      (thingX.components.map fun co => co.properties.map Property.parent) :=
  (c4_wiring c0 thingX
    { things := [wireThing thingX], updateCounter := 0, connected := false } rfl).2.2

/-! ## Batch registration lemmas for C6 -/

/-- A batch that registers without error appends exactly its wired things. -/
theorem Abstract_ok_things :
    ∀ (ts : List Thing) (c : ClientState), (Abstract c ts).2 = none →
      (Abstract c ts).1.things = c.things ++ ts.map wireThing := by
  intro ts
  induction ts with
  | nil =>
    intro c _
    simp [Abstract]
  | cons t ts ih =>
    intro c h
    cases hv : validateThing c t with
    | some e =>
      simp only [Abstract, abstract, hv] at h
      exact Option.noConfusion h
    | none =>
      simp only [Abstract, abstract, hv] at h ⊢
      rw [ih _ h]
      simp

/-- Registering a batch whose first part succeeds continues from the state
the first part produced. -/
theorem Abstract_ok_append :
    ∀ (ts1 : List Thing) (c : ClientState) (ts2 : List Thing),
      (Abstract c ts1).2 = none →
      Abstract c (ts1 ++ ts2) = Abstract (Abstract c ts1).1 ts2 := by
  intro ts1
  induction ts1 with
  | nil =>
    intro c ts2 _
    simp [Abstract]
  | cons t ts ih =>
    intro c ts2 h
    cases hv : validateThing c t with
    | some e =>
      simp only [Abstract, abstract, hv] at h
      exact Option.noConfusion h
    | none =>
      simp only [List.cons_append, Abstract, abstract, hv] at h ⊢
      exact ih _ ts2 h

/-- C6: when the front of a batch registers without error and the next thing
fails validation in the state the front produced, `Abstract` returns that
validation error, the front remains registered (wired, in order), and
nothing after the failing thing is registered; and, in particular,
registering a second thing with the identifier of an already registered one
fails with the duplicate error and leaves the first registered. -/
theorem c6_partial_batch :
    (∀ (c : ClientState) (ts1 : List Thing) (t : Thing) (ts2 : List Thing)
        (err : SdkError),
      (Abstract c ts1).2 = none →
      validateThing (Abstract c ts1).1 t = some err →
      Abstract c (ts1 ++ t :: ts2) = ((Abstract c ts1).1, some err) ∧
      (Abstract c ts1).1.things = c.things ++ ts1.map wireThing) ∧
    (∀ (c : ClientState) (t1 t2 : Thing),
      (Abstract c [t1]).2 = none → t2.id = t1.id →
      Abstract (Abstract c [t1]).1 [t2] =
        ((Abstract c [t1]).1, some (.duplicateThing t2.id)) ∧
      (Abstract c [t1]).1.things = c.things ++ [wireThing t1]) := by
  constructor
  · intro c ts1 t ts2 err h1 h2
    refine ⟨?_, Abstract_ok_things ts1 c h1⟩
    rw [Abstract_ok_append ts1 c (t :: ts2) h1]
    simp only [Abstract, abstract, h2]
  · intro c t1 t2 h1 h12
    have hth := Abstract_ok_things [t1] c h1
    have hdup : validateThing (Abstract c [t1]).1 t2 =
        some (.duplicateThing t2.id) := by
      rw [validateThing, if_pos]
      rw [hth]
      simp only [List.any_append, List.any_cons, List.any_nil, List.map_cons,
        List.map_nil, Bool.or_eq_true]
      right
      left
      simp [wireThing, h12]
    refine ⟨?_, by simpa using hth⟩
    generalize hc1 : (Abstract c [t1]).1 = c1 at hdup ⊢
    simp only [Abstract, abstract, hdup]

/-- Witness for C6: registering `tDup1` succeeds; a second registration of
`tDup2`, which carries the same identifier `dup`, fails with the duplicate
error and leaves `tDup1` registered. -/
theorem c6_witness :
    Abstract (Abstract c0 [tDup1]).1 [tDup2] =
      ((Abstract c0 [tDup1]).1, some (.duplicateThing "dup")) ∧
    (Abstract c0 [tDup1]).1.things = c0.things ++ [wireThing tDup1] :=
  c6_partial_batch.2 c0 tDup1 tDup2 rfl rfl

/-- C7: when an execute-action message resolves through the registered tree
(thing by identifier, component by identifier, action by name), the dispatch
invokes the action's handler exactly once with the action descriptor and the
message's argument values in order, and sends exactly one execution-result
message with the original sequence number: SUCCESS when the handler returns
no error, FAILURE with the error text otherwise. -/
theorem c7_action_dispatch (c : ClientState) (tid cid an : String)
    (ps : List String) (seq : Nat) (th : Thing) (co : Component) (act : Action)
    (h1 : getThing c tid = some th) (h2 : th.GetComponent cid = some co)
    (h3 : co.GetAction an = some act) :
    (handleAction c ⟨tid, cid, an, ps, seq⟩).1 = [(act.descr, ps)] ∧
    (act.execute act.descr ps = none →
      (handleAction c ⟨tid, cid, an, ps, seq⟩).2 =
        [.executionResult "" .success seq]) ∧
    (∀ e, act.execute act.descr ps = some e →
      (handleAction c ⟨tid, cid, an, ps, seq⟩).2 =
        [.executionResult e .failure seq]) := by
  cases hex : act.execute act.descr ps with
  | none =>
    refine ⟨?_, fun _ => ?_, fun e he => ?_⟩
    · simp [handleAction, h1, h2, h3, hex]
    · simp [handleAction, h1, h2, h3, hex]
    · exact Option.noConfusion he
  | some e0 =>
    refine ⟨?_, fun hno => ?_, fun e he => ?_⟩
    · simp [handleAction, h1, h2, h3, hex]
    · exact Option.noConfusion hno
    · cases he
      simp [handleAction, h1, h2, h3, hex]

/-- Witness for C7: the registered `thingTurn` tree resolves the path
`(thing1, comp1, turnOn)`; the always-succeeding handler is invoked once
with no arguments and one SUCCESS execution result with sequence number 42
is sent. -/
theorem c7_witness :
    (handleAction cTurn ⟨"thing1", "comp1", "turnOn", [], 42⟩).1 =
      [(actTurnOn.descr, [])] ∧
    (handleAction cTurn ⟨"thing1", "comp1", "turnOn", [], 42⟩).2 =
      [.executionResult "" .success 42] := by
  have h := c7_action_dispatch cTurn "thing1" "comp1" "turnOn" [] 42
    (wireThing thingTurn) (wireComponent "thing1" compTurn) actTurnOn rfl rfl rfl
  exact ⟨h.1, h.2.1 rfl⟩

/-- C9: action resolution searches only the actions of the component's
capabilities: when the component's direct `Actions` slice holds an action
with the requested name but no capability does, `GetAction` returns `none`,
so an execute-action message addressed to that path invokes no handler and
sends no message. -/
theorem c9_direct_actions_unreachable (co : Component) (an : String)
    (_hd : co.actions.any (fun a => a.name == an) = true)
    (hcap : ∀ cap ∈ co.capabilities, ∀ a ∈ cap.actions, a.name ≠ an) :
    co.GetAction an = none ∧
    ∀ (c : ClientState) (tid cid : String) (ps : List String) (seq : Nat)
      (th : Thing),
      getThing c tid = some th → th.GetComponent cid = some co →
      handleAction c ⟨tid, cid, an, ps, seq⟩ = ([], []) := by
  have hnone : co.GetAction an = none := by
    rw [Component.GetAction]
    rw [List.findSome?_eq_none_iff]
    intro cap hcapmem
    rw [List.find?_eq_none]
    intro a hamem
    simp only [beq_iff_eq]
    exact hcap cap hcapmem a hamem
  refine ⟨hnone, ?_⟩
  intro c tid cid ps seq th h1 h2
  simp [handleAction, h1, h2, hnone]

/-- Witness for C9: `compDirect` (wired into `thingDirect`) holds `turnOn`
only in its direct `Actions` slice; resolution returns `none` and the
execute-action message addressed to it produces no invocation and no
outbound message. -/
theorem c9_witness :
    (wireComponent "thing2" compDirect).GetAction "turnOn" = none ∧
    handleAction cDirect ⟨"thing2", "comp2", "turnOn", [], 7⟩ = ([], []) := by
  have h := c9_direct_actions_unreachable (wireComponent "thing2" compDirect)
    "turnOn" rfl (by intro cap hcap; simp [wireComponent, compDirect] at hcap)
  exact ⟨h.1, h.2 cDirect "thing2" "comp2" [] 7 (wireThing thingDirect) rfl rfl⟩

end Sdk
